import Mathlib

/-!
Shallow embedding of the core per-block processing and patch-state logic of
the Cardinal plugin wrapper (src/CardinalPlugin.cpp and src/CardinalCommon.cpp).

Modelling conventions:
* machine integers (uint64_t frame counters, byte values) are Nat;
* audio sample memory is a map from buffer address to sample index to value
  (samples as Int; the numeric value of samples is irrelevant to the
  properties below, only identity of the bytes matters);
* the staging (autosave) directory is a list of (file name, bytes) pairs;
* filesystem / archiver / engine collaborators that live outside these two
  source files (rack::system archive and unarchive, patch manager load and
  save) are oracles passed in as function parameters, since the claims only
  constrain how CardinalPlugin.cpp reacts to their success or failure.
-/

namespace Cardinal

/-- MIDI event as used by the DPF wrapper: frame offset, size in bytes and the
(up to four) data bytes.  CardinalPlugin.cpp builds its bypass events by
zeroing the struct and then setting size and the first two data bytes. -/
structure MidiEvent where
  frame : Nat
  size : Nat
  data : List Nat
deriving DecidableEq

/-- Embedding of the template helper d_isDiffHigherThanLimit in
CardinalPlugin.cpp: v1 != v2 ? (v1 > v2 ? v1 - v2 : v2 - v1) > limit : false,
instantiated at uint64_t (hence Nat with truncated subtraction). -/
def d_isDiffHigherThanLimit (v1 v2 limit : Nat) : Bool :=
  if v1 ≠ v2 then decide ((if v1 > v2 then v1 - v2 else v2 - v1) > limit) else false

/-- The slice of the host TimePosition read by CardinalPlugin::run for the
transport logic: the playing flag and the absolute frame (uint64_t). -/
structure TimePos where
  playing : Bool
  frame : Nat
deriving DecidableEq

/-- The transport-related mutable state read and written by
CardinalPlugin::run: context->playing, context->frame and the plugin member
fNextExpectedFrame. -/
structure TransportState where
  ctxPlaying : Bool
  ctxFrame : Nat
  nextExpectedFrame : Nat
deriving DecidableEq

/-- Embedding of the transport block of CardinalPlugin::run (the braces
holding the TimePosition handling).  Returns the updated state together with
the reset flag that is stored into context->reset.  The musical-time (BBT)
recomputation in the same block is floating-point arithmetic on fields the
claims below do not mention and is omitted. -/
def transportRun (s : TransportState) (tp : TimePos) (frames : Nat) :
    TransportState × Bool :=
  let reset0 := tp.playing &&
    (tp.frame == 0 || d_isDiffHigherThanLimit s.nextExpectedFrame tp.frame 2)
  -- "ignore hosts which cannot supply time frame position"
  let reset := if s.ctxPlaying == tp.playing && tp.frame == 0 && s.ctxFrame == 0
               then false else reset0
  ({ ctxPlaying := tp.playing
     ctxFrame := tp.frame
     nextExpectedFrame := if tp.playing then tp.frame + frames else 0 }, reset)

/-- The spec's formula for the stored reset flag, written from the spec's
words: reset = playing && (frame == 0 || |expected - frame| > 2), forced
false when the previous and the current call both show playing with
frame == 0 and the context frame counter is 0. -/
def specReset (prevPlaying playing : Bool) (frame ctxFrame expected : Nat) : Bool :=
  if prevPlaying && playing && (frame == 0) && (ctxFrame == 0) then false
  else playing && ((frame == 0) || decide (((expected : Int) - (frame : Int)).natAbs > 2))

/-- Sample memory: buffer address, then sample index, to sample value. -/
abbrev Mem : Type := Nat → Nat → Int

/-- Host buffer arrays handed to CardinalPlugin::run.  inBase is the address
of the float** inputs array itself (none models a null inputs pointer),
inPtrs the per-channel buffer addresses; likewise for the outputs, whose
array pointer is never null. -/
structure HostBuffers where
  inBase : Option Nat
  inPtrs : List Nat
  outBase : Nat
  outPtrs : List Nat
deriving DecidableEq

/-- The buffer-path condition of CardinalPlugin::run:
inputs != outputs && (inputs == nullptr || inputs[0] != outputs[0]).
True selects the zero-copy path (host buffers handed through), false the
scratch-copy path. -/
def zeroCopyCond (io : HostBuffers) : Bool :=
  (!(io.inBase == some io.outBase)) &&
    ((io.inBase == none) || !(io.inPtrs.head? == io.outPtrs.head?))

/-- memcpy of the first frames samples from buffer src into buffer dst. -/
def memCopy (mem : Mem) (dst src frames : Nat) : Mem :=
  fun a j => if a = dst ∧ j < frames then mem src j else mem a j

/-- memset of the first frames samples of buffer dst to zero. -/
def memZero (mem : Mem) (dst frames : Nat) : Mem :=
  fun a j => if a = dst ∧ j < frames then 0 else mem a j

/-- The per-channel memcpy loop: each (dst, src) pair in order. -/
def copyAll (mem : Mem) (pairs : List (Nat × Nat)) (frames : Nat) : Mem :=
  pairs.foldl (fun m p => memCopy m p.1 p.2 frames) mem

/-- The per-channel memset loop over the output buffers. -/
def zeroAll (mem : Mem) (dsts : List Nat) (frames : Nat) : Mem :=
  dsts.foldl (fun m d => memZero m d frames) mem

/-- Embedding of the buffer-selection part of CardinalPlugin::run (the
variant with DISTRHO_PLUGIN_NUM_INPUTS != 0 and without the MAIN-variant
per-channel null checks): choose dataIns/dataOuts, copying inputs into the
pre-allocated scratch buffers on the inline-processing path, then zero-fill
every output buffer.  Returns (dataIns, dataOuts, memory afterwards); the
engine then reads its input from dataIns in that memory. -/
def runBuffers (io : HostBuffers) (scratch : List Nat) (frames : Nat) (mem : Mem) :
    Option (List Nat) × List Nat × Mem :=
  let step :=
    if zeroCopyCond io then
      ((if io.inBase == none then none else some io.inPtrs), mem)
    else
      (some scratch, copyAll mem (scratch.zip io.inPtrs) frames)
  (step.1, io.outPtrs, zeroAll step.2 io.outPtrs frames)

/-- The 16 bypass MIDI events built once in the CardinalPlugin constructor:
the array is zeroed, then for each channel i the size is set to 3, data[0]
to 0xB0 + i and data[1] to 0x7B (data[2] and data[3] stay zero). -/
def bypassMidiEvents : List MidiEvent :=
  (List.range 16).map fun i => { frame := 0, size := 3, data := [0xB0 + i, 0x7B, 0, 0] }

/-- Embedding of the MIDI-event selection of CardinalPlugin::run together
with the trailing fWasBypassed update: given the previous block's
fWasBypassed, this block's bypassed flag and the host events, return the
events delivered to the engine context and the new fWasBypassed.  A null
context->midiEvents with count 0 is modelled as the empty list. -/
def runMidi (wasBypassed bypassed : Bool) (hostEvents : List MidiEvent) :
    List MidiEvent × Bool :=
  (if bypassed then
     (if wasBypassed != bypassed then bypassMidiEvents else [])
   else hostEvents, bypassed)

/-- The staging (autosave) directory content: file name to bytes. -/
abbrev Dir : Type := List (String × List Nat)

/-- The five bytes compared by setState: the constant is declared as
static constexpr const char zstdMagic[] = "\x28\xb5\x2f\xfd", whose sizeof
is 5 because the string literal carries a NUL terminator, and the memcmp is
called with sizeof(zstdMagic). -/
def zstdMagicBytes : List Nat := [0x28, 0xB5, 0x2F, 0xFD, 0x00]

/-- memcmp(data.data(), zstdMagic, sizeof(zstdMagic)) == 0.  Faithful for
blobs of length at least 5; for a blob of length exactly 4 the C memcmp
reads one byte past the end of the vector (undefined behaviour), modelled
here as a mismatch. -/
def matchesZstdMagic (data : List Nat) : Bool := data.take 5 == zstdMagicBytes

/-- Embedding of the "patch" branch of CardinalPlugin::setState, starting
after base64 decoding: data are the decoded bytes, dir0 the staging
directory content before the call, unarchive the
rack::system::unarchiveToDirectory oracle (none models a throw, in which
case DISTRHO_SAFE_EXCEPTION_RETURN returns with the directory cleared).
autosaveEmpty models fAutosavePath.empty().  Returns the staging directory
content after the call and whether context->patch->loadAutosave was
invoked.  The fopen of patch.json is assumed to succeed. -/
def setStatePatch (autosaveEmpty : Bool) (dir0 : Dir) (data : List Nat)
    (unarchive : List Nat → Option Dir) : Dir × Bool :=
  if autosaveEmpty then (dir0, false)
  else if data.length < 4 then (dir0, false)
  else
    -- removeRecursively(fAutosavePath); createDirectories(fAutosavePath)
    if matchesZstdMagic data = false then
      ([("patch.json", data)], true)
    else
      match unarchive data with
      | none => ([], false)
      | some d => (d, true)

/-- Embedding of the "patch" branch of CardinalPlugin::getState: save is the
prepareSave/saveAutosave/cleanAutosave effect on the staging directory,
archive the rack::system::archiveDirectory oracle (none models a throw, in
which case DISTRHO_SAFE_EXCEPTION_RETURN yields String()), enc the base64
encoder.  The result is the bytes of the returned string ([] is the empty
string). -/
def getStatePatch (autosaveEmpty : Bool) (dir0 : Dir) (save : Dir → Dir)
    (archive : Dir → Option (List Nat)) (enc : List Nat → List Nat) : List Nat :=
  if autosaveEmpty then []
  else
    match archive (save dir0) with
    | none => []
    | some bytes => enc bytes

/-- Embedding of the autosave-path selection loop in the CardinalPlugin
constructor: for i = 1, 2, 3, ... build the candidate "Cardinal.%04d" path;
at the first candidate that does not exist, create it (fAutosavePath is set
only if createDirectories succeeds) and break.  ex i tells whether candidate
i exists, ok i whether creating it succeeds.  The fuel argument bounds the
unbounded C loop; none models fAutosavePath left empty. -/
def autosaveLoop (ex ok : Nat → Bool) : Nat → Nat → Option Nat
  | 0, _ => none
  | fuel + 1, i =>
    if ex i then autosaveLoop ex ok fuel (i + 1)
    else if ok i then some i else none

/-- The constructor's try block around the loop: rootOk = false models an
exception from getTempDirectory or the loop (DISTRHO_SAFE_EXCEPTION leaves
fAutosavePath empty). -/
def autosaveCreate (rootOk : Bool) (ex ok : Nat → Bool) (fuel : Nat) : Option Nat :=
  if rootOk then autosaveLoop ex ok fuel 1 else none

/-- rack MIDI message as read by CardinalPluginContext::writeMidiMessage:
a frame (int64_t) and the raw bytes. -/
structure MidiMessage where
  frame : Int
  bytes : List Nat

/-- The status-byte switch of CardinalPluginContext::writeMidiMessage
(CardinalCommon.cpp): the event size for the leading byte, none when the
function returns without emitting (unsupported or invalid status). -/
def midiEventSizeFor (b0 : Nat) : Option Nat :=
  match b0 &&& 0xF0 with
  | 0x80 | 0x90 | 0xA0 | 0xB0 | 0xE0 => some 3
  | 0xC0 | 0xD0 => some 2
  | 0xF0 =>
    match b0 &&& 0x0F with
    | 0x0 | 0x4 | 0x5 | 0x7 | 0x9 | 0xD => none
    | 0x1 | 0x2 | 0x3 | 0xE => some 3
    | _ => some 1  -- the remaining nibbles 0x6, 0x8, 0xA, 0xB, 0xC, 0xF
  | _ => none

/-- Embedding of CardinalPluginContext::writeMidiMessage: returns the event
handed to plugin->writeMidiEvent, or none when nothing is emitted.  The
first statement returns immediately when the instance is bypassed. -/
def writeMidiMessage (bypassed : Bool) (msg : MidiMessage) (channel : Nat) :
    Option MidiEvent :=
  if bypassed then none
  else if msg.bytes.length = 0 then none     -- DISTRHO_SAFE_ASSERT_RETURN(size > 0)
  else if msg.frame < 0 then none            -- DISTRHO_SAFE_ASSERT_RETURN(frame >= 0)
  else
    match midiEventSizeFor (msg.bytes.headD 0) with
    | none => none
    | some evSize =>
      if msg.bytes.length < evSize then none -- DISTRHO_SAFE_ASSERT_RETURN(size >= event.size)
      else
        let data := msg.bytes.take evSize
        let data := if channel ≠ 0 ∧ msg.bytes.headD 0 < 0xF0
                    then (msg.bytes.headD 0 ||| (channel &&& 0x0F)) :: data.tail
                    else data
        some { frame := msg.frame.toNat, size := evSize, data := data }

/-! Theorems.  Helper lemmas come first, then one theorem per claim. -/

lemma d_isDiff_eq (v1 v2 limit : Nat) :
    d_isDiffHigherThanLimit v1 v2 limit = decide (((v1 : Int) - v2).natAbs > limit) := by
  unfold d_isDiffHigherThanLimit
  by_cases h : v1 = v2
  · subst h; simp
  · rw [if_pos h, decide_eq_decide]
    by_cases h2 : v1 > v2 <;> simp only [h2, if_true, if_false] <;> omega

lemma transportRun_snd_eq (s : TransportState) (tp : TimePos) (frames : Nat) :
    (transportRun s tp frames).2 =
      specReset s.ctxPlaying tp.playing tp.frame s.ctxFrame s.nextExpectedFrame := by
  unfold transportRun specReset
  cases hp : tp.playing <;> cases hc : s.ctxPlaying <;> simp [d_isDiff_eq]

/-- Claim C5 (confirmed): the per-block reset flag stored into the context
equals playing && (frame == 0 || |expected - frame| > 2), except that it is
forced false when the previous and current calls both show playing with
frame == 0 and the context frame counter is also 0. -/
theorem c5_reset_formula (s : TransportState) (tp : TimePos) (frames : Nat) :
    (transportRun s tp frames).2 =
      specReset s.ctxPlaying tp.playing tp.frame s.ctxFrame s.nextExpectedFrame :=
  transportRun_snd_eq s tp frames

/-- Claim C7 (confirmed): after every run call the stored next-expected-frame
counter equals the snapshot frame plus the block length when playing, else 0. -/
theorem c7_next_expected_frame (s : TransportState) (tp : TimePos) (frames : Nat) :
    (transportRun s tp frames).1.nextExpectedFrame =
      if tp.playing then tp.frame + frames else 0 := rfl

/-- Claim C4, counterexample: at a playing snapshot with frame 0, previous
context playing with context frame 0, the reset flag is false although the
claim demands true (the suppression exception fires); and at a playing
snapshot with frame 0 whose stored expected frame equals the frame exactly
(previous context not playing), the reset flag is true although the claim
demands false. -/
theorem c4_counterexample :
    ((⟨true, 0⟩ : TimePos).playing = true ∧ (⟨true, 0⟩ : TimePos).frame = 0 ∧
      (transportRun ⟨true, 0, 0⟩ ⟨true, 0⟩ 512).2 = false) ∧
    ((⟨false, 5, 0⟩ : TransportState).nextExpectedFrame = (⟨true, 0⟩ : TimePos).frame ∧
      (transportRun ⟨false, 5, 0⟩ ⟨true, 0⟩ 512).2 = true) := by decide

/-- Claim C4 as amended (proved): with playing=true, if |expected - frame| > 2
or frame == 0, and the suppression condition (previous playing flag equal to
the current one with frame == 0 and context frame 0) does not hold, the reset
flag is true; and if the stored expected frame equals the snapshot frame and
the frame is nonzero, the reset flag is false. -/
theorem c4_amended_reset (s : TransportState) (tp : TimePos) (frames : Nat) :
    (tp.playing = true →
      (tp.frame = 0 ∨ ((s.nextExpectedFrame : Int) - tp.frame).natAbs > 2) →
      ¬(s.ctxPlaying = tp.playing ∧ tp.frame = 0 ∧ s.ctxFrame = 0) →
      (transportRun s tp frames).2 = true) ∧
    (s.nextExpectedFrame = tp.frame → tp.frame ≠ 0 →
      (transportRun s tp frames).2 = false) := by
  constructor
  · intro hpl hcond hsup
    rw [transportRun_snd_eq]
    unfold specReset
    rw [hpl]
    split_ifs with hc
    · exfalso
      apply hsup
      simp only [Bool.and_eq_true, beq_iff_eq] at hc
      exact ⟨by rw [hpl]; exact hc.1.1.1, hc.1.2, hc.2⟩
    · rcases hcond with h2 | h2
      · simp [h2]
      · simp [h2]
  · intro heq hne
    rw [transportRun_snd_eq]
    unfold specReset
    split_ifs with hc
    · rfl
    · rw [heq]
      simp [hne]

theorem c4_amended_witness :
    (transportRun ⟨false, 5, 7⟩ ⟨true, 100⟩ 8).2 = true :=
  (c4_amended_reset ⟨false, 5, 7⟩ ⟨true, 100⟩ 8).1 rfl (Or.inr (by decide)) (by decide)

/-- Claim C6 (confirmed): across a 3-block sequence with bypass flags
(false, true, true) the events delivered to the engine are the host events
unchanged, then exactly the 16 precomputed all-sound-off events (status
0xB0 + channel, data bytes 0x7B and 0, size 3, one per channel 0-15), then
zero events; and any non-bypassed block passes the host events through
unchanged regardless of the previous block's bypass flag. -/
theorem c6_bypass_sequence (w0 : Bool) (h1 h2 h3 : List MidiEvent) :
    (runMidi w0 false h1).1 = h1 ∧
    (runMidi (runMidi w0 false h1).2 true h2).1 = bypassMidiEvents ∧
    bypassMidiEvents.length = 16 ∧
    (∀ i : Fin 16, bypassMidiEvents.getD i.val ⟨0, 0, []⟩ =
      ⟨0, 3, [0xB0 + i.val, 0x7B, 0, 0]⟩) ∧
    (runMidi (runMidi (runMidi w0 false h1).2 true h2).2 true h3).1 = [] ∧
    (∀ w : Bool, ∀ h : List MidiEvent, (runMidi w false h).1 = h) := by
  refine ⟨rfl, rfl, rfl, ?_, rfl, fun w h => rfl⟩
  decide

/-- Claim C10 (confirmed): while the instance is bypassed, writeMidiMessage
returns immediately and forwards no MIDI event to the host. -/
theorem c10_bypassed_no_midi (msg : MidiMessage) (channel : Nat) :
    writeMidiMessage true msg channel = none := rfl

/-- Claim C2 (confirmed): a decoded blob shorter than 4 bytes leaves the
staging directory byte-for-byte unchanged and the engine is not asked to
load. -/
theorem c2_short_blob_no_mutation (autosaveEmpty : Bool) (dir0 : Dir) (data : List Nat)
    (unarchive : List Nat → Option Dir) (h : data.length < 4) :
    setStatePatch autosaveEmpty dir0 data unarchive = (dir0, false) := by
  cases autosaveEmpty
  · unfold setStatePatch
    simp [h]
  · rfl

theorem c2_witness :
    setStatePatch false [("patch.json", [1, 2])] [1, 2, 3] (fun _ => some []) =
      ([("patch.json", [1, 2])], false) :=
  c2_short_blob_no_mutation false _ _ _ (by decide)

/-- Claim C1, evaluation at the failing input: the 5-byte decoded blob
28 B5 2F FD 01 has first 4 bytes equal to the zstd magic, yet setState
writes it verbatim as patch.json instead of unarchiving it, because the
memcmp compares sizeof("\x28\xb5\x2f\xfd") = 5 bytes, including the NUL
terminator of the string literal. -/
theorem c1_magic_sizeof_bug :
    List.take 4 [0x28, 0xB5, 0x2F, 0xFD, 0x01] = [0x28, 0xB5, 0x2F, 0xFD] ∧
    setStatePatch false [] [0x28, 0xB5, 0x2F, 0xFD, 0x01]
        (fun _ => some [("unarchived.txt", [])]) =
      ([("patch.json", [0x28, 0xB5, 0x2F, 0xFD, 0x01])], true) := by
  constructor
  · rfl
  · rfl

/-- Claim C8 (confirmed): when archiving the staging directory throws, the
patch encode operation returns an empty result rather than partial data. -/
theorem c8_archive_throw_empty (dir0 : Dir) (save : Dir → Dir)
    (archive : Dir → Option (List Nat)) (enc : List Nat → List Nat)
    (h : archive (save dir0) = none) :
    getStatePatch false dir0 save archive enc = [] := by
  unfold getStatePatch
  simp [h]

theorem c8_witness :
    getStatePatch false [] id (fun _ => none) id = [] :=
  c8_archive_throw_empty [] id (fun _ => none) id rfl

lemma autosaveLoop_spec (ex ok : Nat → Bool) :
    ∀ fuel i p, autosaveLoop ex ok fuel i = some p →
      ex p = false ∧ ok p = true ∧ ∀ q, i ≤ q → q < p → ex q = true := by
  intro fuel
  induction fuel with
  | zero => intro i p h; simp [autosaveLoop] at h
  | succ n ih =>
    intro i p h
    unfold autosaveLoop at h
    by_cases hex : ex i
    · rw [if_pos hex] at h
      obtain ⟨h1, h2, h3⟩ := ih (i + 1) p h
      refine ⟨h1, h2, fun q hq1 hq2 => ?_⟩
      rcases Nat.eq_or_lt_of_le hq1 with rfl | hlt
      · exact hex
      · exact h3 q hlt hq2
    · rw [if_neg hex] at h
      by_cases hok : ok i
      · rw [if_pos hok] at h
        obtain rfl := Option.some.inj h
        exact ⟨Bool.not_eq_true _ ▸ (by simpa using hex), hok, fun q hq1 hq2 => absurd hq2 (by omega)⟩
      · rw [if_neg hok] at h
        exact absurd h (by simp)

/-- Claim C9 (confirmed): the constructor selects the staging directory by
trying suffixes 1, 2, 3, ...: whenever a path is selected, its candidate did
not exist, its creation succeeded, and every smaller candidate from 1 on
existed; with no usable temporary root the path is left empty; and with an
empty path the patch encode and decode operations return without side
effects. -/
theorem c9_autosave_selection (ex ok : Nat → Bool) (fuel : Nat) (dir0 : Dir)
    (save : Dir → Dir) (archive : Dir → Option (List Nat)) (enc : List Nat → List Nat)
    (data : List Nat) (unarchive : List Nat → Option Dir) :
    (∀ p, autosaveCreate true ex ok fuel = some p →
      ex p = false ∧ ok p = true ∧ ∀ q, 1 ≤ q → q < p → ex q = true) ∧
    autosaveCreate false ex ok fuel = none ∧
    getStatePatch true dir0 save archive enc = [] ∧
    setStatePatch true dir0 data unarchive = (dir0, false) := by
  refine ⟨fun p h => autosaveLoop_spec ex ok fuel 1 p ?_, rfl, rfl, rfl⟩
  simpa [autosaveCreate] using h

theorem c9_witness :
    (fun j => decide (j < 3)) 3 = false ∧ ((fun _ : Nat => true) 3 = true) ∧
    getStatePatch true [] id (fun _ => none) id = [] := by
  have h := c9_autosave_selection (fun j => decide (j < 3)) (fun _ : Nat => true) 10 []
      id (fun _ => none) id [] (fun _ => none)
  have h2 := h.1 3 (by decide)
  exact ⟨h2.1, h2.2.1, h.2.2.1⟩

lemma copyAll_cons (mem : Mem) (p : Nat × Nat) (rest : List (Nat × Nat)) (frames : Nat) :
    copyAll mem (p :: rest) frames = copyAll (memCopy mem p.1 p.2 frames) rest frames := rfl

lemma zeroAll_cons (mem : Mem) (d : Nat) (rest : List Nat) (frames : Nat) :
    zeroAll mem (d :: rest) frames = zeroAll (memZero mem d frames) rest frames := rfl

lemma copyAll_not_mem (frames : Nat) :
    ∀ (pairs : List (Nat × Nat)) (mem : Mem) (a : Nat),
      a ∉ pairs.map Prod.fst → ∀ j, copyAll mem pairs frames a j = mem a j := by
  intro pairs
  induction pairs with
  | nil => intro mem a _ j; rfl
  | cons p rest ih =>
    intro mem a ha j
    simp only [List.map_cons, List.mem_cons, not_or] at ha
    rw [copyAll_cons, ih _ a ha.2 j]
    unfold memCopy
    simp [ha.1]

lemma zeroAll_not_mem (frames : Nat) :
    ∀ (dsts : List Nat) (mem : Mem) (a : Nat),
      a ∉ dsts → ∀ j, zeroAll mem dsts frames a j = mem a j := by
  intro dsts
  induction dsts with
  | nil => intro mem a _ j; rfl
  | cons d rest ih =>
    intro mem a ha j
    simp only [List.mem_cons, not_or] at ha
    rw [zeroAll_cons, ih _ a ha.2 j]
    unfold memZero
    simp [ha.1]

lemma zeroAll_mem (frames : Nat) :
    ∀ (dsts : List Nat) (mem : Mem) (a : Nat),
      a ∈ dsts → ∀ j, j < frames → zeroAll mem dsts frames a j = 0 := by
  intro dsts
  induction dsts with
  | nil => intro mem a ha; exact absurd ha (List.not_mem_nil a)
  | cons d rest ih =>
    intro mem a ha j hj
    rw [zeroAll_cons]
    by_cases h2 : a ∈ rest
    · exact ih _ a h2 j hj
    · rcases List.mem_cons.mp ha with rfl | h3
      · rw [zeroAll_not_mem frames rest _ a h2 j]
        unfold memZero
        simp [hj]
      · exact absurd h3 h2

lemma copyAll_zip_get (frames : Nat) :
    ∀ (scratch inPtrs : List Nat) (mem : Mem),
      scratch.Nodup →
      (∀ a ∈ scratch, a ∉ inPtrs) →
      scratch.length = inPtrs.length →
      ∀ i (hi : i < scratch.length) (hi2 : i < inPtrs.length) (j : Nat), j < frames →
        copyAll mem (scratch.zip inPtrs) frames (scratch.get ⟨i, hi⟩) j =
          mem (inPtrs.get ⟨i, hi2⟩) j := by
  intro scratch
  induction scratch with
  | nil => intro inPtrs mem _ _ _ i hi; exact absurd hi (by simp)
  | cons s ss ih =>
    intro inPtrs mem hnd hdis hlen i hi hi2 j hj
    cases inPtrs with
    | nil => exact absurd hi2 (by simp)
    | cons t ts =>
      rw [List.zip_cons_cons, copyAll_cons]
      cases i with
      | zero =>
        have hnot : s ∉ (ss.zip ts).map Prod.fst := by
          have hsub : (ss.zip ts).map Prod.fst = ss := by
            apply List.map_fst_zip
            simp only [List.length_cons, Nat.succ.injEq] at hlen
            omega
          rw [hsub]
          exact (List.nodup_cons.mp hnd).1
        show copyAll (memCopy mem s t frames) (ss.zip ts) frames s j = mem t j
        rw [copyAll_not_mem frames _ _ _ hnot j]
        show (if s = s ∧ j < frames then mem t j else mem s j) = mem t j
        rw [if_pos ⟨rfl, hj⟩]
      | succ i' =>
        have hi' : i' < ss.length := by simpa using hi
        have hi2' : i' < ts.length := by simpa using hi2
        have hstep := ih ts (memCopy mem s t frames) (List.nodup_cons.mp hnd).2
          (fun a ha => by
            have := hdis a (List.mem_cons_of_mem s ha)
            simp only [List.mem_cons, not_or] at this
            exact this.2)
          (by simpa using hlen) i' hi' hi2' j hj
        show copyAll (memCopy mem s t frames) (ss.zip ts) frames (ss.get ⟨i', hi'⟩) j =
          mem (ts.get ⟨i', hi2'⟩) j
        rw [hstep]
        have hne : ts.get ⟨i', hi2'⟩ ≠ s := by
          intro he
          have hs := hdis s (List.mem_cons_self s ss)
          simp only [List.mem_cons, not_or] at hs
          exact hs.2 (he ▸ List.get_mem ts i' hi2')
        show (if ts.get ⟨i', hi2'⟩ = s ∧ j < frames then mem t j
              else mem (ts.get ⟨i', hi2'⟩) j) = mem (ts.get ⟨i', hi2'⟩) j
        exact if_neg (fun hcc => hne hcc.1)

lemma zeroCopyCond_false_iff (io : HostBuffers) :
    zeroCopyCond io = false ↔
      io.inBase = some io.outBase ∨
        (io.inBase ≠ none ∧ io.inPtrs.head? = io.outPtrs.head?) := by
  cases hb : io.inBase <;> simp [zeroCopyCond, hb]
  tauto

/-- Claim C3, counterexample: with input array base 1, output array base 2,
input channel pointers [10, 20] and output channel pointers [11, 20],
channel 1's input pointer equals its output pointer, yet the zero-copy path
is taken (only channel 0 is compared by the code), the host buffers are
handed through, and after the pre-engine zero-fill of the outputs the
engine observes zeros on channel 1 instead of the pre-call host contents 5. -/
theorem c3_counterexample :
    zeroCopyCond ⟨some 1, [10, 20], 2, [11, 20]⟩ = true ∧
    List.getD [10, 20] 1 0 = List.getD [11, 20] 1 0 ∧
    (runBuffers ⟨some 1, [10, 20], 2, [11, 20]⟩ [100, 101] 1
        (fun a _ => if a = 20 then (5 : Int) else 0)).1 = some [10, 20] ∧
    (runBuffers ⟨some 1, [10, 20], 2, [11, 20]⟩ [100, 101] 1
        (fun a _ => if a = 20 then (5 : Int) else 0)).2.2 20 0 = 0 ∧
    (fun a _ => if a = 20 then (5 : Int) else 0) 20 0 = 5 := by decide

/-- Claim C3 as amended (proved): the scratch-copy path is taken exactly when
the input array's base equals the output array's base, or the input array is
non-null and channel 0's input pointer equals channel 0's output pointer
(only channel 0 is compared, not every channel); whenever the copy path is
taken, every channel's engine-observed input equals the pre-call host buffer
contents via the scratch copy (scratch buffers being distinct from all host
buffers); and every declared output buffer is zero-filled before the engine
runs. -/
theorem c3_amended_buffers (io : HostBuffers) (scratch : List Nat) (frames : Nat) (mem : Mem)
    (hlen : scratch.length = io.inPtrs.length)
    (hnd : scratch.Nodup)
    (hdisIn : ∀ a ∈ scratch, a ∉ io.inPtrs)
    (hdisOut : ∀ a ∈ scratch, a ∉ io.outPtrs) :
    (zeroCopyCond io = false ↔
      io.inBase = some io.outBase ∨
        (io.inBase ≠ none ∧ io.inPtrs.head? = io.outPtrs.head?)) ∧
    (zeroCopyCond io = false →
      (runBuffers io scratch frames mem).1 = some scratch ∧
      (∀ i (hi : i < scratch.length) (hi2 : i < io.inPtrs.length) (j : Nat), j < frames →
        (runBuffers io scratch frames mem).2.2 (scratch.get ⟨i, hi⟩) j =
          mem (io.inPtrs.get ⟨i, hi2⟩) j)) ∧
    (∀ a ∈ io.outPtrs, ∀ j, j < frames →
      (runBuffers io scratch frames mem).2.2 a j = 0) := by
  refine ⟨zeroCopyCond_false_iff io, fun hpath => ?_, fun a ha j hj => ?_⟩
  · unfold runBuffers
    rw [if_neg (by simp [hpath])]
    refine ⟨rfl, fun i hi hi2 j hj => ?_⟩
    show zeroAll (copyAll mem (scratch.zip io.inPtrs) frames) io.outPtrs frames
        (scratch.get ⟨i, hi⟩) j = mem (io.inPtrs.get ⟨i, hi2⟩) j
    rw [zeroAll_not_mem frames io.outPtrs _ _ (hdisOut _ (List.get_mem scratch i hi)) j]
    exact copyAll_zip_get frames scratch io.inPtrs mem hnd hdisIn hlen i hi hi2 j hj
  · have hmem : (runBuffers io scratch frames mem).2.2 =
        zeroAll (if zeroCopyCond io then mem else copyAll mem (scratch.zip io.inPtrs) frames)
          io.outPtrs frames := by
      unfold runBuffers
      split_ifs <;> rfl
    rw [hmem]
    exact zeroAll_mem frames io.outPtrs _ a ha j hj

theorem c3_amended_witness :
    (runBuffers ⟨some 5, [10, 20], 5, [11, 21]⟩ [100, 101] 2
        (fun a j => (a : Int) + j)).1 = some [100, 101] ∧
    (runBuffers ⟨some 5, [10, 20], 5, [11, 21]⟩ [100, 101] 2
        (fun a j => (a : Int) + j)).2.2 100 1 = 11 := by
  have h := c3_amended_buffers ⟨some 5, [10, 20], 5, [11, 21]⟩ [100, 101] 2
      (fun a j => (a : Int) + j) (by decide) (by decide) (by decide) (by decide)
  have h2 := h.2.1 (by decide)
  refine ⟨h2.1, ?_⟩
  have h3 := h2.2 0 (by decide) (by decide) 1 (by decide)
  simpa using h3

end Cardinal
